import Mathlib

/-!
Verification of the ETL pipeline engine of this repository
(`02-pipeline-procesamiento-datos`): the orchestrator `EjecutorPipeline`
(`pipeline/ejecutor.py`), the cleansing transformer `TransformadorLimpieza`
(`pipeline/transformadores/transformador_limpieza.py`) and the quality
metrics (`utilidades/helpers/helpers_pipeline.py`).

The embedding is shallow:
* Python scalar cell values become `Valor` (null / numeric / string / bool).
  Python's `int64`/`float64` are merged into an exact rational `Rat`; the
  embedding's value universe has no IEEE infinities or NaN payloads, so the
  `np.isinf` check of `_calcular_precision_datos` is vacuously satisfied
  here.  pandas `NaN` (missing cell) and Python `None` are both `Valor.nulo`;
  for every operation the pipeline performs (isnull, dropna, comparisons)
  the two behave identically.
* A record (`Dict[str, Any]`) is an association list `Reg`; a pandas
  `DataFrame` is a column-name list plus a row-major value matrix (`Df`).
* Exceptions become `Except String`; a collaborator's behaviour during one
  `run()` is the value/exception it produces on that run.
* Wall-clock fields of `ResultadoPipeline` (`fecha_inicio`, `fecha_fin`,
  `duracion_segundos`) are outside the embedding (real time).
-/

set_option linter.unusedVariables false

/-- A cell value: Python `None` / pandas `NaN`, a numeric (`int64`/`float64`
merged into `Rat`), a string, or a boolean. -/
inductive Valor where
  | nulo : Valor
  | num (q : Rat) : Valor
  | str (s : String) : Valor
  | boolean (b : Bool) : Valor
deriving DecidableEq, Repr

/-- One record: an ordered mapping field-name to value (`Dict[str, Any]`). -/
abbrev Reg := List (String × Valor)

/-- A row of a DataFrame: the cell values in column order. -/
abbrev Fila := List Valor

/-- A pandas DataFrame: the ordered column names and the row-major cells.
Well-formed frames have every row of length `cols.length`. -/
structure Df where
  cols : List String
  rows : List Fila
deriving DecidableEq, Repr

/-- Column names of `pd.DataFrame(datos)`: the union of the records' keys in
order of first appearance. -/
def columnasDe (datos : List Reg) : List String :=
  datos.foldl
    (fun acc r => r.foldl (fun acc2 kv => if kv.1 ∈ acc2 then acc2 else acc2 ++ [kv.1]) acc)
    []

/-- First value stored under key `c` in record `r`; a missing key is a
missing cell, i.e. `NaN` (`Valor.nulo`). -/
def buscarValor (r : Reg) (c : String) : Valor :=
  match r.find? (fun kv => kv.1 == c) with
  | some kv => kv.2
  | none => Valor.nulo

/-- `pd.DataFrame(datos)`: union columns, rows padded with `NaN` for keys a
record lacks. -/
def dfDeRegistros (datos : List Reg) : Df :=
  let cols := columnasDe datos
  { cols := cols, rows := datos.map (fun r => cols.map (fun c => buscarValor r c)) }

/-- `df.to_dict('records')`: every row becomes a record carrying all columns. -/
def registrosDeDf (df : Df) : List Reg :=
  df.rows.map (fun fila => df.cols.zip fila)

/-- The values of column `c` of `df` (empty when the column is absent). -/
def columna (df : Df) (c : String) : List Valor :=
  match df.cols.findIdx? (fun x => x == c) with
  | some i => df.rows.map (fun fila => fila.getD i Valor.nulo)
  | none => []

/-- The pandas dtype of a column, abstracted to the three classes the
pipeline distinguishes. -/
inductive Dtype where
  | numerico  -- `int64` / `float64`
  | objeto    -- `object`
  | booleano  -- `bool`
deriving DecidableEq, Repr

/-- Dtype inference for a column: all non-null values numeric (at least one)
gives `int64`/`float64`; all values boolean with no nulls gives `bool`;
anything else (mixed, strings, all-null) is `object`. -/
def dtypeCol (vals : List Valor) : Dtype :=
  let noNulos := vals.filter (fun v => !(v == Valor.nulo))
  if !noNulos.isEmpty && noNulos.all (fun v => match v with | Valor.num _ => true | _ => false) then
    Dtype.numerico
  else if !vals.isEmpty && vals.all (fun v => match v with | Valor.boolean _ => true | _ => false) then
    Dtype.booleano
  else
    Dtype.objeto

/-- The non-null numeric values of a column (what pandas reductions such as
`quantile`/`mean` operate on, since they skip `NaN`). -/
def numerosDe (vals : List Valor) : List Rat :=
  vals.filterMap (fun v => match v with | Valor.num q => some q | _ => none)

/-- Insert into a sorted list of rationals. -/
def insertarOrdenado (x : Rat) : List Rat → List Rat
  | [] => [x]
  | y :: ys => if x ≤ y then x :: y :: ys else y :: insertarOrdenado x ys

/-- Ascending sort of a list of rationals. -/
def ordenar : List Rat → List Rat
  | [] => []
  | x :: xs => insertarOrdenado x (ordenar xs)

/-- `Series.quantile(p)` with pandas' default linear interpolation over the
sorted values: the value at fractional position `p * (n - 1)`. -/
def cuantil (vals : List Rat) (p : Rat) : Rat :=
  let s := ordenar vals
  let n := s.length
  if n = 0 then 0
  else
    let h : Rat := p * ((n : Rat) - 1)
    let i : Nat := h.floor.toNat
    let base := s.getD i 0
    base + (h - (i : Rat)) * (s.getD (i + 1) base - base)

/-- `Series.mean()` over the non-null values. -/
def media (nums : List Rat) : Rat :=
  if nums.isEmpty then 0 else nums.sum / (nums.length : Rat)

/-- `duplicated().sum()`: how many rows equal some earlier row. -/
def contarDuplicadasDesde (antes : List Fila) : List Fila → Nat
  | [] => 0
  | f :: resto =>
      (if f ∈ antes then 1 else 0) + contarDuplicadasDesde (antes ++ [f]) resto

/-- `df.duplicated().sum()` (full-row key, `keep='first'`). -/
def contarDuplicadas (filas : List Fila) : Nat :=
  contarDuplicadasDesde [] filas

/-- `Python round(x, 2)` modelled as rounding to the nearest multiple of
`1/100` (the tie-to-even refinement of Python floats never matters for the
claims, which only use the `[0, 100]` range of the result). -/
def redondear2 (x : Rat) : Rat :=
  ((round (x * 100) : Int) : Rat) / 100

/-- `_tiene_outliers_extremos`: any value outside `[Q1 - 3*IQR, Q3 + 3*IQR]`,
with the `IQR == 0` early exit. -/
def tieneOutliersExtremos (vals : List Valor) : Bool :=
  let nums := numerosDe vals
  let q1 := cuantil nums (1/4)
  let q3 := cuantil nums (3/4)
  let iqr := q3 - q1
  if iqr = 0 then false
  else
    let limInf := q1 - 3 * iqr
    let limSup := q3 + 3 * iqr
    nums.any (fun x => decide (x < limInf) || decide (x > limSup))

/-- `_es_texto_consistente`: every non-null value of the column is a string
(the source deduplicates first, which does not change the answer). -/
def esTextoConsistente (vals : List Valor) : Bool :=
  (vals.filter (fun v => !(v == Valor.nulo))).all
    (fun v => match v with | Valor.str _ => true | _ => false)

/-- Per-column score of `_calcular_precision_datos`: an all-null column is
skipped (0); a numeric column earns a point for having no infinities (always
true in the `Rat` embedding), a point for having no extreme outliers; an
object column earns a point for type-consistent text; every non-skipped
column earns a point when its null ratio is below 50%. -/
def puntuacionColumna (n : Nat) (vals : List Valor) : Nat :=
  if (vals.filter (fun v => !(v == Valor.nulo))).isEmpty then 0
  else
    let base :=
      if dtypeCol vals = Dtype.numerico then
        1 + (if tieneOutliersExtremos vals then 0 else 1)
      else if dtypeCol vals = Dtype.objeto then
        (if esTextoConsistente vals then 1 else 0)
      else 0
    base + (if 2 * (vals.filter (fun v => v == Valor.nulo)).length < n then 1 else 0)

/-- `_calcular_precision_datos`: average the per-column 3-criterion score,
scaled to 100. -/
def calcularPrecisionDatos (df : Df) : Rat :=
  let totalColumnas := df.cols.length
  if totalColumnas = 0 then 0
  else
    let puntuacion := (df.cols.map (fun c => puntuacionColumna df.rows.length (columna df c))).sum
    ((puntuacion : Rat) / ((totalColumnas : Rat) * 3)) * 100

/-- The dictionary returned by `calcular_metricas_calidad` (the empty-input
branch of the source omits the last two keys; consumers read them with
defaults, modelled as 0). -/
structure MetricasCalidad where
  completitud : Rat
  consistencia : Rat
  precision : Rat
  totalRegistros : Nat
  registrosDuplicados : Nat
  celdasNulas : Nat
deriving DecidableEq, Repr

/-- `calcular_metricas_calidad` from `helpers_pipeline.py`. -/
def calcularMetricasCalidad (datos : List Reg) : MetricasCalidad :=
  if datos.isEmpty then
    { completitud := 0, consistencia := 0, precision := 0,
      totalRegistros := 0, registrosDuplicados := 0, celdasNulas := 0 }
  else
    let df := dfDeRegistros datos
    let totalCeldas : Nat := df.rows.length * df.cols.length
    let celdasNulas : Nat := (df.rows.map (fun fila => (fila.filter (fun v => v == Valor.nulo)).length)).sum
    let completitud : Rat :=
      if 0 < totalCeldas then
        (((totalCeldas : Rat) - (celdasNulas : Rat)) / (totalCeldas : Rat)) * 100
      else 0
    let registrosDuplicados := contarDuplicadas df.rows
    let totalRegistros := df.rows.length
    let consistencia : Rat :=
      if 0 < totalRegistros then
        (((totalRegistros : Rat) - (registrosDuplicados : Rat)) / (totalRegistros : Rat)) * 100
      else 0
    let precision := calcularPrecisionDatos df
    { completitud := redondear2 completitud,
      consistencia := redondear2 consistencia,
      precision := redondear2 precision,
      totalRegistros := totalRegistros,
      registrosDuplicados := registrosDuplicados,
      celdasNulas := celdasNulas }

/-! ## `TransformadorLimpieza` configuration

The merged `configuracion_final` dictionary, as an explicit structure.  The
`columnas_especificas` entry of `manejo_nulos` appears in the source's
default dictionary but is never read by any method, so it is omitted. -/

structure ConfigNulos where
  estrategia : String
  imputacion : String
  valorFijo : Option Valor
deriving DecidableEq, Repr

structure ConfigOutliers where
  habilitado : Bool
  metodo : String
  factor : Rat
  columnasNumericas : Option (List String)
deriving DecidableEq, Repr

structure ConfigDuplicados where
  habilitado : Bool
  mantener : String
  subset : Option (List String)
deriving DecidableEq, Repr

structure ConfigTexto where
  habilitada : Bool
  minusculas : Bool
  eliminarEspacios : Bool
  eliminarCaracteresEspeciales : Bool
  normalizarAcentos : Bool
deriving DecidableEq, Repr

structure ConfigFechas where
  habilitada : Bool
  formatoEntrada : String
  formatoSalida : String
  zonaHoraria : String
deriving DecidableEq, Repr

/-- Rule validation settings: per-column numeric ranges (min/max), allowed
values, and text length bounds. -/
structure ConfigValidacion where
  habilitada : Bool
  rangosNumericos : List (String × Option Rat × Option Rat)
  valoresPermitidos : List (String × List Valor)
  longitudTexto : List (String × Option Nat × Option Nat)
deriving DecidableEq, Repr

structure ConfigLimpieza where
  manejoNulos : ConfigNulos
  manejoOutliers : ConfigOutliers
  manejoDuplicados : ConfigDuplicados
  normalizacionTexto : ConfigTexto
  normalizacionFechas : ConfigFechas
  validacionDatos : ConfigValidacion
deriving DecidableEq, Repr

/-- The source's `configuracion_default` of `TransformadorLimpieza.__init__`. -/
def configuracionDefault : ConfigLimpieza :=
  { manejoNulos := { estrategia := "eliminar", imputacion := "media", valorFijo := none },
    manejoOutliers := { habilitado := true, metodo := "iqr", factor := 3/2, columnasNumericas := none },
    manejoDuplicados := { habilitado := true, mantener := "primero", subset := none },
    normalizacionTexto := { habilitada := true, minusculas := true, eliminarEspacios := true,
                            eliminarCaracteresEspeciales := false, normalizarAcentos := true },
    normalizacionFechas := { habilitada := true, formatoEntrada := "auto",
                             formatoSalida := "%Y-%m-%d %H:%M:%S", zonaHoraria := "UTC" },
    validacionDatos := { habilitada := true, rangosNumericos := [], valoresPermitidos := [],
                         longitudTexto := [] } }

/-- `TransformadorLimpieza.validar_configuracion`: checks the null strategy,
the imputation method (only when the strategy is `imputar`), and the outlier
method; raises `ErrorConfiguracion` (modelled as `.error`) otherwise. -/
def validarConfiguracion (cfg : ConfigLimpieza) : Except String Bool :=
  if !(["eliminar", "imputar", "marcar"].contains cfg.manejoNulos.estrategia) then
    Except.error ("Estrategia de nulos inválida: " ++ cfg.manejoNulos.estrategia)
  else if cfg.manejoNulos.estrategia == "imputar"
      && !(["media", "mediana", "moda", "valor_fijo"].contains cfg.manejoNulos.imputacion) then
    Except.error ("Método de imputación inválido: " ++ cfg.manejoNulos.imputacion)
  else if !(["iqr", "zscore", "isolation_forest"].contains cfg.manejoOutliers.metodo) then
    Except.error ("Método de outliers inválido: " ++ cfg.manejoOutliers.metodo)
  else
    Except.ok true

/-! ## Cleansing stages -/

/-- Overwrite column `nombre` of `df` with `vals` when present, otherwise
append it as the last column (`df_limpio[nombre] = vals`). -/
def asignarColumna (df : Df) (nombre : String) (vals : List Valor) : Df :=
  match df.cols.findIdx? (fun x => x == nombre) with
  | some i => { df with rows := (df.rows.zip vals).map (fun p => p.1.set i p.2) }
  | none => { cols := df.cols ++ [nombre], rows := (df.rows.zip vals).map (fun p => p.1 ++ [p.2]) }

/-- `fillna(v)` on column `c`. -/
def rellenarColumna (df : Df) (c : String) (v : Valor) : Df :=
  match df.cols.findIdx? (fun x => x == c) with
  | some i =>
      { df with rows := df.rows.map (fun fila =>
          if fila.getD i Valor.nulo == Valor.nulo then fila.set i v else fila) }
  | none => df

/-- Multiplicity of `x` in `nums`. -/
def cuentaEn (nums : List Rat) (x : Rat) : Nat := (nums.filter (fun y => y == x)).length

/-- `Series.mode()[0]` for a numeric column: the most frequent value; pandas
returns the candidates sorted ascending, so ties go to the smallest. -/
def modaNum (nums : List Rat) : Rat :=
  match ordenar nums.dedup with
  | [] => 0
  | c :: cs => cs.foldl (fun mejor x => if cuentaEn nums mejor < cuentaEn nums x then x else mejor) c

/-- `Series.mode()` first element for a non-numeric column: `none` when all
values are null.  Ties are resolved by first occurrence (pandas sorts the
candidates; no claim exercises a tie). -/
def modaValor (vals : List Valor) : Option Valor :=
  let noNulos := vals.filter (fun v => !(v == Valor.nulo))
  match noNulos with
  | [] => none
  | c :: cs => some (cs.foldl
      (fun mejor x =>
        if (noNulos.filter (fun y => y == mejor)).length < (noNulos.filter (fun y => y == x)).length
        then x else mejor) c)

/-- `Series.median()` = quantile 0.5 over the non-null values. -/
def mediana (nums : List Rat) : Rat := cuantil nums (1/2)

/-- `_manejar_valores_nulos`: drop rows containing a null (`eliminar`),
impute per column (`imputar`), or add `<col>_es_nulo` marker columns
(`marcar`).  An unknown strategy leaves the frame untouched (the source's
`if/elif` chain has no else branch). -/
def manejarValoresNulos (cfgN : ConfigNulos) (df : Df) : Df :=
  if cfgN.estrategia == "eliminar" then
    { df with rows := df.rows.filter (fun fila => fila.all (fun v => !(v == Valor.nulo))) }
  else if cfgN.estrategia == "imputar" then
    df.cols.foldl
      (fun acc c =>
        let vals := columna df c
        if dtypeCol vals == Dtype.numerico then
          if cfgN.imputacion == "media" then rellenarColumna acc c (Valor.num (media (numerosDe vals)))
          else if cfgN.imputacion == "mediana" then rellenarColumna acc c (Valor.num (mediana (numerosDe vals)))
          else if cfgN.imputacion == "moda" then rellenarColumna acc c (Valor.num (modaNum (numerosDe vals)))
          else if cfgN.imputacion == "valor_fijo" then
            match cfgN.valorFijo with
            | some v => rellenarColumna acc c v
            | none => acc
          else acc
        else
          if cfgN.imputacion == "moda" then
            match modaValor vals with
            | some v => rellenarColumna acc c v
            | none => acc
          else if cfgN.imputacion == "valor_fijo" then
            match cfgN.valorFijo with
            | some v => rellenarColumna acc c v
            | none => acc
          else acc)
      df
  else if cfgN.estrategia == "marcar" then
    df.cols.foldl
      (fun acc c =>
        asignarColumna acc (c ++ "_es_nulo")
          ((columna df c).map (fun v => Valor.boolean (v == Valor.nulo))))
      df
  else df

/-- `str(value)` as pandas' `astype(str)` applies it to an object column.
Only the string case is exercised by the claims; the rendering of numerals,
booleans and nulls is a faithful-in-shape abstraction of Python's `str`. -/
def valorATexto (v : Valor) : String :=
  match v with
  | Valor.str s => s
  | Valor.num q => if q.den == 1 then toString q.num else toString q.num ++ "/" ++ toString q.den
  | Valor.boolean b => if b then "True" else "False"
  | Valor.nulo => "None"

/-- The NFD + ascii-encode + decode accent folding of `_normalizar_texto`,
abstracted to dropping non-ASCII characters (exact on ASCII strings, which
are the only ones the claims use). -/
def plegarAscii (s : String) : String :=
  String.mk (s.toList.filter (fun c => c.toNat < 128))

/-- The per-cell text pipeline of `_normalizar_texto`: lowercase, strip,
strip special characters (`[^a-zA-Z0-9\s]`), fold accents — each step only
when enabled. -/
def normalizarCadena (cfgT : ConfigTexto) (s0 : String) : String :=
  let s1 := if cfgT.minusculas then s0.toLower else s0
  let s2 := if cfgT.eliminarEspacios then s1.trim else s1
  let s3 := if cfgT.eliminarCaracteresEspeciales then
      String.mk (s2.toList.filter (fun c => c.isAlphanum || c == ' ' || c == '\t' || c == '\n' || c == '\r'))
    else s2
  if cfgT.normalizarAcentos then plegarAscii s3 else s3

/-- `_normalizar_texto`: every object-dtype column (dtype judged on the
stage's input frame) is cast to strings and normalized cell-wise. -/
def normalizarTexto (cfgT : ConfigTexto) (df : Df) : Df :=
  df.cols.foldl
    (fun acc c =>
      if dtypeCol (columna df c) == Dtype.objeto then
        asignarColumna acc c
          ((columna df c).map (fun v => Valor.str (normalizarCadena cfgT (valorATexto v))))
      else acc)
    df

/-- A conservative model of `pd.to_datetime`'s auto-detection: exactly the
ISO `YYYY-MM-DD` strings parse.  The claims only exercise the failure path
(non-date strings leave the column untouched). -/
def esFechaIso (s : String) : Bool :=
  let cs := s.toList
  cs.length == 10
    && (List.range 10).all (fun i =>
        let c := cs.getD i ' '
        if i == 4 || i == 7 then c == '-' else c.isDigit)

/-- Formatting of a parsed date with the configured output format: the
source's default `"%Y-%m-%d %H:%M:%S"` appends a midnight time; any other
format string is modelled as the canonical ISO date. -/
def formatearFecha (formato : String) (s : String) : String :=
  if formato == "%Y-%m-%d %H:%M:%S" then s ++ " 00:00:00" else s

/-- `_normalizar_fechas`: for each object column, try to parse every value;
if all parse, the column is replaced by formatted timestamps, otherwise
`pd.to_datetime` raises and the column is left untouched (warning only). -/
def normalizarFechas (cfgF : ConfigFechas) (df : Df) : Df :=
  df.cols.foldl
    (fun acc c =>
      if dtypeCol (columna df c) == Dtype.objeto then
        let vals := columna df c
        let parseables := vals.all (fun v => match v with
          | Valor.str s => esFechaIso s
          | _ => false)
        if parseables then
          asignarColumna acc c (vals.map (fun v =>
            Valor.str (formatearFecha cfgF.formatoSalida (valorATexto v))))
        else acc
      else acc)
    df

/-- Dedupe key of a row: the full row, or the values of a configured column
subset (pandas raises `KeyError` for a subset column missing from the frame;
the claims only use present columns — an absent one reads as null here). -/
def claveFila (subset : Option (List String)) (cols : List String) (fila : Fila) : List Valor :=
  match subset with
  | none => fila
  | some cs => cs.map (fun c =>
      match cols.findIdx? (fun x => x == c) with
      | some i => fila.getD i Valor.nulo
      | none => Valor.nulo)

/-- `drop_duplicates(keep='first')` walk: keep a row whose key was not seen
yet, accumulating seen keys. -/
def filasKeepFirstGo (clave : Fila → List Valor) (vistas : List (List Valor)) :
    List Fila → List Fila
  | [] => []
  | f :: resto =>
      if clave f ∈ vistas then filasKeepFirstGo clave vistas resto
      else f :: filasKeepFirstGo clave (vistas ++ [clave f]) resto

def filasKeepFirst (clave : Fila → List Valor) (filas : List Fila) : List Fila :=
  filasKeepFirstGo clave [] filas

/-- `keep='last'`: the last occurrence of each key survives, in original
order. -/
def filasKeepLast (clave : Fila → List Valor) (filas : List Fila) : List Fila :=
  (filasKeepFirst clave filas.reverse).reverse

/-- `keep=False`: only rows whose key occurs exactly once survive. -/
def filasKeepNone (clave : Fila → List Valor) (filas : List Fila) : List Fila :=
  filas.filter (fun f => (filas.filter (fun g => clave g == clave f)).length == 1)

/-- `_manejar_duplicados`: `drop_duplicates` under the configured key subset
and keep policy; an unrecognized policy leaves the frame untouched. -/
def manejarDuplicados (cfgD : ConfigDuplicados) (df : Df) : Df :=
  let clave := claveFila cfgD.subset df.cols
  if cfgD.mantener == "primero" then { df with rows := filasKeepFirst clave df.rows }
  else if cfgD.mantener == "ultimo" then { df with rows := filasKeepLast clave df.rows }
  else if cfgD.mantener == "ninguno" then { df with rows := filasKeepNone clave df.rows }
  else df

/-- IQR outlier mask over a column: bounds `[Q1 - k*IQR, Q3 + k*IQR]` from
the column's quantiles; null cells compare as `False` (pandas `NaN`). -/
def mascaraOutliersIqr (factor : Rat) (vals : List Valor) : List Bool :=
  let nums := numerosDe vals
  let q1 := cuantil nums (1/4)
  let q3 := cuantil nums (3/4)
  let iqr := q3 - q1
  let limInf := q1 - factor * iqr
  let limSup := q3 + factor * iqr
  vals.map (fun v => match v with
    | Valor.num x => decide (x < limInf) || decide (x > limSup)
    | _ => false)

/-- Sample variance (pandas `std()` uses `ddof=1`); 0 for fewer than two
values, where pandas yields `NaN` and every `z > t` comparison is `False`,
matching this model. -/
def varianzaMuestral (nums : List Rat) : Rat :=
  if nums.length ≤ 1 then 0
  else
    let m := media nums
    (nums.map (fun x => (x - m) ^ 2)).sum / ((nums.length : Rat) - 1)

/-- Z-score outlier mask: `|x - mean| / std > factor`, stated squared to
stay in exact arithmetic (`std ≥ 0` makes the forms equivalent). -/
def mascaraOutliersZscore (factor : Rat) (vals : List Valor) : List Bool :=
  let nums := numerosDe vals
  let m := media nums
  let v := varianzaMuestral nums
  vals.map (fun w => match w with
    | Valor.num x => decide (factor ^ 2 * v < (x - m) ^ 2)
    | _ => false)

/-- `_manejar_outliers`: per-column masks are computed on the stage's input
frame and combined; `df_limpio[~outliers]` aligns on the original index, so
a row survives iff no processed column flags it.  The validated
`isolation_forest` method has no branch in the source and flags nothing. -/
def manejarOutliers (cfgO : ConfigOutliers) (df : Df) : Df :=
  let columnas := match cfgO.columnasNumericas with
    | none => df.cols.filter (fun c => dtypeCol (columna df c) == Dtype.numerico)
    | some cs => cs
  let mascara : List Bool := columnas.foldl
    (fun acc c =>
      if df.cols.contains c && dtypeCol (columna df c) == Dtype.numerico then
        let m :=
          if cfgO.metodo == "iqr" then mascaraOutliersIqr cfgO.factor (columna df c)
          else if cfgO.metodo == "zscore" then mascaraOutliersZscore cfgO.factor (columna df c)
          else List.replicate df.rows.length false
        acc.zipWith (fun a b => a || b) m
      else acc)
    (List.replicate df.rows.length false)
  { df with rows := (df.rows.zip mascara).filterMap (fun p => if p.2 then none else some p.1) }

/-- Boolean filter of the rows of `df` by a predicate on the cell of column
`c` (no-op when the column is absent). -/
def filtrarFilas (df : Df) (c : String) (p : Valor → Bool) : Df :=
  match df.cols.findIdx? (fun x => x == c) with
  | some i => { df with rows := df.rows.filter (fun fila => p (fila.getD i Valor.nulo)) }
  | none => df

/-- `_validar_datos`: sequential filters for numeric ranges, allowed values
and text lengths.  Dtype guards are evaluated on the stage's input frame;
the filters chain on the progressively shrunk frame.  A null cell compares
as `False` and is dropped by an active range/length rule, as in pandas. -/
def validarDatos (cfgV : ConfigValidacion) (df : Df) : Df :=
  let d1 := cfgV.rangosNumericos.foldl
    (fun acc r =>
      if df.cols.contains r.1 && dtypeCol (columna df r.1) == Dtype.numerico then
        let acc1 := match r.2.1 with
          | some m => filtrarFilas acc r.1 (fun v => match v with
              | Valor.num x => decide (m ≤ x)
              | _ => false)
          | none => acc
        match r.2.2 with
        | some m => filtrarFilas acc1 r.1 (fun v => match v with
            | Valor.num x => decide (x ≤ m)
            | _ => false)
        | none => acc1
      else acc)
    df
  let d2 := cfgV.valoresPermitidos.foldl
    (fun acc r =>
      if df.cols.contains r.1 then filtrarFilas acc r.1 (fun v => r.2.contains v) else acc)
    d1
  cfgV.longitudTexto.foldl
    (fun acc r =>
      if df.cols.contains r.1 && dtypeCol (columna df r.1) == Dtype.objeto then
        let acc1 := match r.2.1 with
          | some m => filtrarFilas acc r.1 (fun v => match v with
              | Valor.str s => decide (m ≤ s.length)
              | _ => false)
          | none => acc
        match r.2.2 with
        | some m => filtrarFilas acc1 r.1 (fun v => match v with
            | Valor.str s => decide (s.length ≤ m)
            | _ => false)
        | none => acc1
      else acc)
    d2

/-- `_aplicar_limpieza`: the fixed stage order — nulls, text, dates,
duplicates, outliers, rule validation — each optional stage gated by its
flag. -/
def aplicarLimpieza (cfg : ConfigLimpieza) (df : Df) : Df :=
  let d1 := manejarValoresNulos cfg.manejoNulos df
  let d2 := if cfg.normalizacionTexto.habilitada then normalizarTexto cfg.normalizacionTexto d1 else d1
  let d3 := if cfg.normalizacionFechas.habilitada then normalizarFechas cfg.normalizacionFechas d2 else d2
  let d4 := if cfg.manejoDuplicados.habilitado then manejarDuplicados cfg.manejoDuplicados d3 else d3
  let d5 := if cfg.manejoOutliers.habilitado then manejarOutliers cfg.manejoOutliers d4 else d4
  if cfg.validacionDatos.habilitada then validarDatos cfg.validacionDatos d5 else d5

/-- The record-level cleansing computation of `TransformadorLimpieza
.transformar` after a successful configuration check: empty input short-
circuits; otherwise DataFrame round-trip around `_aplicar_limpieza`. -/
def limpiar (cfg : ConfigLimpieza) (datos : List Reg) : List Reg :=
  if datos.isEmpty then [] else registrosDeDf (aplicarLimpieza cfg (dfDeRegistros datos))

/-- `TransformadorLimpieza.transformar`: validates the configuration first
(the `ErrorConfiguracion` is re-raised wrapped in an `ErrorTransformacion`
by the method's `except` clause), then cleans. -/
def transformarLimpieza (cfg : ConfigLimpieza) (datos : List Reg) : Except String (List Reg) :=
  match validarConfiguracion cfg with
  | Except.error e => Except.error ("Error en transformación de limpieza: " ++ e)
  | Except.ok _ => Except.ok (limpiar cfg datos)

/-! ## The orchestrator `EjecutorPipeline` -/

/-- `ConfiguracionPipeline` (the wall-clock-free fields). -/
structure ConfiguracionPipeline where
  nombrePipeline : String
  version : String := "1.0.0"
  descripcion : String := ""
  tamanoLote : Nat := 10000
  maxWorkers : Nat := 4
  timeoutSegundos : Nat := 300
  nivelLog : String := "INFO"
  incluirMetricas : Bool := true
  validarEntrada : Bool := true
  validarSalida : Bool := true
  toleranciaErrores : Rat := 1/20

/-- `ResultadoPipeline` without the wall-clock fields (`fecha_inicio`,
`fecha_fin`, `duracion_segundos`), which are outside the embedding.
`registros_fallidos` is a Python `int` and may be negative. -/
structure ResultadoPipeline where
  nombrePipeline : String
  registrosProcesados : Nat
  registrosExitosos : Nat
  registrosFallidos : Int
  tasaExito : Rat
  completitudDatos : Rat
  consistenciaDatos : Rat
  precisionDatos : Rat
  errores : List String
  advertencias : List String
  archivosSalida : List String
  reportesGenerados : List String
deriving Repr

/-- A registered extractor, by the outcome of its `extraer(parametros)` call
on the run under consideration (the run parameters are fixed per run). -/
abbrev Extractor := Except String (List Reg)

/-- A registered transformer, by its `transformar` behaviour. -/
abbrev Transformador := List Reg → Except String (List Reg)

/-- A registered loader, by its `cargar` behaviour (returns artifact paths). -/
abbrev Cargador := List Reg → Except String (List String)

/-- A registered validator: the orchestrator probes `hasattr` for each hook,
so each is optional. -/
structure Validador where
  entradaHook : Option (List Reg → Except String Unit)
  salidaHook : Option (List Reg → Except String Unit)

/-- `EjecutorPipeline._ejecutar_extraccion`: call every extractor in order,
concatenating outputs; the first exception propagates. -/
def ejecutarExtraccion : List Extractor → Except String (List Reg)
  | [] => Except.ok []
  | e :: resto =>
      match e with
      | Except.error m => Except.error m
      | Except.ok datos =>
          match ejecutarExtraccion resto with
          | Except.error m => Except.error m
          | Except.ok acc => Except.ok (datos ++ acc)

/-- `EjecutorPipeline._ejecutar_validacion_entrada`. -/
def ejecutarValidacionEntrada (vs : List Validador) (datos : List Reg) : Except String Unit :=
  match vs with
  | [] => Except.ok ()
  | v :: resto =>
      match v.entradaHook with
      | some f =>
          match f datos with
          | Except.error m => Except.error m
          | Except.ok _ => ejecutarValidacionEntrada resto datos
      | none => ejecutarValidacionEntrada resto datos

/-- `EjecutorPipeline._ejecutar_validacion_salida`. -/
def ejecutarValidacionSalida (vs : List Validador) (datos : List Reg) : Except String Unit :=
  match vs with
  | [] => Except.ok ()
  | v :: resto =>
      match v.salidaHook with
      | some f =>
          match f datos with
          | Except.error m => Except.error m
          | Except.ok _ => ejecutarValidacionSalida resto datos
      | none => ejecutarValidacionSalida resto datos

/-- `EjecutorPipeline._ejecutar_transformacion`: pipe the record set through
every transformer in order; the first exception propagates. -/
def ejecutarTransformacion (ts : List Transformador) (datos : List Reg) :
    Except String (List Reg) :=
  match ts with
  | [] => Except.ok datos
  | t :: resto =>
      match t datos with
      | Except.error m => Except.error m
      | Except.ok siguientes => ejecutarTransformacion resto siguientes

/-- `EjecutorPipeline._ejecutar_carga`: call every loader with the final
record set, concatenating artifact lists; the first exception propagates. -/
def ejecutarCarga (cs : List Cargador) (datos : List Reg) : Except String (List String) :=
  match cs with
  | [] => Except.ok []
  | c :: resto =>
      match c datos with
      | Except.error m => Except.error m
      | Except.ok archivos =>
          match ejecutarCarga resto datos with
          | Except.error m => Except.error m
          | Except.ok acc => Except.ok (archivos ++ acc)

/-- The `try` body of `EjecutorPipeline.ejecutar`: the five phases in
order, any exception short-circuiting to the handler. -/
def ejecutarNucleo (cfg : ConfiguracionPipeline) (extractores : List Extractor)
    (transformadores : List Transformador) (cargadores : List Cargador)
    (validadores : List Validador) :
    Except String (List Reg × List Reg × List String) :=
  match ejecutarExtraccion extractores with
  | Except.error e => Except.error e
  | Except.ok datosExtraidos =>
    match (if cfg.validarEntrada then ejecutarValidacionEntrada validadores datosExtraidos
           else Except.ok ()) with
    | Except.error e => Except.error e
    | Except.ok _ =>
      match ejecutarTransformacion transformadores datosExtraidos with
      | Except.error e => Except.error e
      | Except.ok datosTransformados =>
        match (if cfg.validarSalida then ejecutarValidacionSalida validadores datosTransformados
               else Except.ok ()) with
        | Except.error e => Except.error e
        | Except.ok _ =>
          match ejecutarCarga cargadores datosTransformados with
          | Except.error e => Except.error e
          | Except.ok archivos => Except.ok (datosExtraidos, datosTransformados, archivos)

/-- `EjecutorPipeline.ejecutar`: on success builds the result from the
phase outputs; on any exception returns the zeroed failure result with the
cause as the single error (`errores=[str(e)]`). -/
def ejecutar (cfg : ConfiguracionPipeline) (extractores : List Extractor)
    (transformadores : List Transformador) (cargadores : List Cargador)
    (validadores : List Validador) : ResultadoPipeline :=
  match ejecutarNucleo cfg extractores transformadores cargadores validadores with
  | Except.ok salida =>
      let datosExtraidos := salida.1
      let datosTransformados := salida.2.1
      let archivos := salida.2.2
      let metricas := calcularMetricasCalidad datosTransformados
      { nombrePipeline := cfg.nombrePipeline,
        registrosProcesados := datosExtraidos.length,
        registrosExitosos := datosTransformados.length,
        registrosFallidos := (datosExtraidos.length : Int) - (datosTransformados.length : Int),
        tasaExito := if datosExtraidos.isEmpty then 0
          else (datosTransformados.length : Rat) / (datosExtraidos.length : Rat),
        completitudDatos := metricas.completitud,
        consistenciaDatos := metricas.consistencia,
        precisionDatos := metricas.precision,
        errores := [],
        advertencias := [],
        archivosSalida := archivos,
        reportesGenerados := [] }
  | Except.error e =>
      { nombrePipeline := cfg.nombrePipeline,
        registrosProcesados := 0,
        registrosExitosos := 0,
        registrosFallidos := 0,
        tasaExito := 0,
        completitudDatos := 0,
        consistenciaDatos := 0,
        precisionDatos := 0,
        errores := [e],
        advertencias := [],
        archivosSalida := [],
        reportesGenerados := [] }

/-- `EjecutorPipeline.agregar_transformador`: appends to the ordered list;
the source performs no validation here (it only logs).  The registered
transformer is represented by its configuration. -/
def agregarTransformador (transformadores : List ConfigLimpieza) (t : ConfigLimpieza) :
    List ConfigLimpieza :=
  transformadores ++ [t]

/-! ## Specification-side definitions and concrete fixtures -/

/-- Spec-side rendering of "keep first": a record survives iff no key-equal
record occurs before it in the original list (`antes` accumulates the
records already passed), so of any key-class exactly the lowest-index
member survives and survivors keep their original relative order. -/
def sinDuplicadosAntes (clave : Fila → List Valor) : List Fila → List Fila → List Fila
  | _, [] => []
  | antes, f :: resto =>
      if ∃ g ∈ antes, clave g = clave f then sinDuplicadosAntes clave (antes ++ [f]) resto
      else f :: sinDuplicadosAntes clave (antes ++ [f]) resto

/-- A pipeline configuration with the source's defaults. -/
def cfgPipelineEjemplo : ConfiguracionPipeline := { nombrePipeline := "pipeline_ejemplo" }

/-- The record set of the end-to-end cleansing scenario. -/
def datos7 : List Reg :=
  [[("a", Valor.num 1), ("b", Valor.str "X")],
   [("a", Valor.nulo), ("b", Valor.str "x")],
   [("a", Valor.num 1), ("b", Valor.str "X")]]

/-- The scenario configuration: null strategy `eliminar`, duplicates
`primero`, outliers disabled; the optional normalization/validation stages
are disabled (the scenario names them nowhere, i.e. leaves them off). -/
def cfg7 : ConfigLimpieza :=
  { manejoNulos := { estrategia := "eliminar", imputacion := "media", valorFijo := none },
    manejoOutliers := { habilitado := false, metodo := "iqr", factor := 3/2, columnasNumericas := none },
    manejoDuplicados := { habilitado := true, mantener := "primero", subset := none },
    normalizacionTexto := { habilitada := false, minusculas := true, eliminarEspacios := true,
                            eliminarCaracteresEspeciales := false, normalizarAcentos := true },
    normalizacionFechas := { habilitada := false, formatoEntrada := "auto",
                             formatoSalida := "%Y-%m-%d %H:%M:%S", zonaHoraria := "UTC" },
    validacionDatos := { habilitada := false, rangosNumericos := [], valoresPermitidos := [],
                         longitudTexto := [] } }

/-- Expected cleansed output of the scenario. -/
def limpio7 : List Reg := [[("a", Valor.num 1), ("b", Valor.str "X")]]

/-- `cfg7` with the null strategy switched to `marcar` and duplicate
handling off: the configuration of the idempotence counterexample. -/
def cfgMarcar : ConfigLimpieza :=
  { cfg7 with
    manejoNulos := { estrategia := "marcar", imputacion := "media", valorFijo := none },
    manejoDuplicados := { habilitado := false, mantener := "primero", subset := none } }

/-- A one-record set with a null field. -/
def datosNulo : List Reg := [[("a", Valor.nulo)]]

/-- A cleansing configuration with an unknown null-handling strategy. -/
def cfgInvalida : ConfigLimpieza :=
  { cfg7 with manejoNulos := { estrategia := "invalida", imputacion := "media", valorFijo := none } }

/-- The single-numeric-column frame of the IQR outlier scenario. -/
def dfOutliers : Df :=
  { cols := ["valor"],
    rows := [[Valor.num 10], [Valor.num 12], [Valor.num 11], [Valor.num 13], [Valor.num 1000]] }

/-- Outlier settings: IQR method with the default factor `k = 1.5`. -/
def cfgOutliersIqr : ConfigOutliers :=
  { habilitado := true, metodo := "iqr", factor := 3/2, columnasNumericas := none }

/-- A one-record set used by the orchestrator fixtures. -/
def datosUno : List Reg := [[("a", Valor.num 1)]]


/-! ## Theorems -/

/-- Bridge: the Batteries `Rat.floor` used by `cuantil` is the `Int.floor`
of the `FloorRing` instance. -/
theorem ratFloor_eq_intFloor (q : Rat) : q.floor = ⌊q⌋ := rfl

/-- C9: the outlier stage with the IQR method and factor 1.5 on the single
numeric column `[10, 12, 11, 13, 1000]` removes exactly the `1000` row and
keeps the other four in order. -/
theorem c9_outliers_iqr_escenario :
    manejarOutliers cfgOutliersIqr dfOutliers =
      { cols := ["valor"],
        rows := [[Valor.num 10], [Valor.num 12], [Valor.num 11], [Valor.num 13]] } := by
  have hcol : columna dfOutliers "valor" =
      [Valor.num 10, Valor.num 12, Valor.num 11, Valor.num 13, Valor.num 1000] := rfl
  have hq1 : cuantil (numerosDe (columna dfOutliers "valor")) (1/4) = 11 := by
    rw [hcol]
    norm_num [numerosDe, cuantil, ordenar, insertarOrdenado, ratFloor_eq_intFloor,
      show Int.toNat 1 = 1 from rfl, List.getD]
  have hq3 : cuantil (numerosDe (columna dfOutliers "valor")) (3/4) = 13 := by
    rw [hcol]
    norm_num [numerosDe, cuantil, ordenar, insertarOrdenado, ratFloor_eq_intFloor,
      show Int.toNat 3 = 3 from rfl, List.getD]
  have hmask : mascaraOutliersIqr cfgOutliersIqr.factor (columna dfOutliers "valor") =
      [false, false, false, false, true] := by
    simp only [mascaraOutliersIqr, show cfgOutliersIqr.factor = (3/2 : Rat) from rfl]
    rw [hq1, hq3, hcol]
    norm_num [List.map]
  have h1 : (dfOutliers.cols.contains "valor"
      && (dtypeCol (columna dfOutliers "valor") == Dtype.numerico)) = true := rfl
  have h2 : (cfgOutliersIqr.metodo == "iqr") = true := rfl
  have hcols : (match cfgOutliersIqr.columnasNumericas with
      | none => List.filter (fun c => dtypeCol (columna dfOutliers c) == Dtype.numerico) dfOutliers.cols
      | some cs => cs) = ["valor"] := rfl
  simp only [manejarOutliers, hcols, List.foldl, h1, h2, if_true]
  rw [show dfOutliers.rows.length = 5 from rfl, hmask]
  rfl

/-- C7: cleansing the scenario record set with null strategy `eliminar`,
duplicates `primero`, outliers disabled (and the optional stages off)
yields exactly `[{"a": 1, "b": "X"}]`, with 3 records in and 1 out — also
when driven through the orchestrator. -/
theorem c7_escenario_limpieza :
    transformarLimpieza cfg7 datos7 = Except.ok limpio7 ∧
    datos7.length = 3 ∧ limpio7.length = 1 ∧
    (ejecutar cfgPipelineEjemplo [Except.ok datos7]
        [fun d => transformarLimpieza cfg7 d] [] []).registrosProcesados = 3 ∧
    (ejecutar cfgPipelineEjemplo [Except.ok datos7]
        [fun d => transformarLimpieza cfg7 d] [] []).registrosExitosos = 1 := by
  exact ⟨rfl, rfl, rfl, rfl, rfl⟩

/-- C10: the quality scorer returns completeness, consistency and precision
all `0.0` for the empty record set, so a run whose transformer drops every
record reports zero quality scores. -/
theorem c10_metricas_vacias :
    (calcularMetricasCalidad []).completitud = 0 ∧
    (calcularMetricasCalidad []).consistencia = 0 ∧
    (calcularMetricasCalidad []).precision = 0 ∧
    (ejecutar cfgPipelineEjemplo [Except.ok datosUno]
        [fun _ => Except.ok []] [] []).completitudDatos = 0 ∧
    (ejecutar cfgPipelineEjemplo [Except.ok datosUno]
        [fun _ => Except.ok []] [] []).consistenciaDatos = 0 ∧
    (ejecutar cfgPipelineEjemplo [Except.ok datosUno]
        [fun _ => Except.ok []] [] []).precisionDatos = 0 := by
  exact ⟨rfl, rfl, rfl, rfl, rfl, rfl⟩

/-- C6 counterexample: a transformer whose configuration holds the unknown
null strategy `"invalida"` registers without any error (registration only
appends), and the `ErrorConfiguracion` only surfaces when `transformar`
runs — refuting "raised at registration time, not lazily at the first
transform call". -/
theorem c6_contraejemplo :
    agregarTransformador [] cfgInvalida = [cfgInvalida] ∧
    transformarLimpieza cfgInvalida datosNulo =
      Except.error "Error en transformación de limpieza: Estrategia de nulos inválida: invalida" := by
  exact ⟨rfl, rfl⟩

/-- C6 amended: registration (`agregar_transformador`) performs no
validation and always appends; a configuration rejected by
`validar_configuracion` makes every `transformar` call fail at run time
with the wrapped `ErrorConfiguracion` message. -/
theorem c6_validacion_diferida (ts : List ConfigLimpieza) (cfg : ConfigLimpieza)
    (datos : List Reg) (m : String) (h : validarConfiguracion cfg = Except.error m) :
    agregarTransformador ts cfg = ts ++ [cfg] ∧
    transformarLimpieza cfg datos = Except.error ("Error en transformación de limpieza: " ++ m) := by
  refine ⟨rfl, ?_⟩
  simp [transformarLimpieza, h]

/-- Witness for C6: the amended theorem applied to the concrete invalid
configuration whose imputation method is `"desconocido"`. -/
theorem c6_validacion_diferida_testigo :
    validarConfiguracion { cfg7 with manejoNulos := ⟨"imputar", "desconocido", none⟩ } =
      Except.error "Método de imputación inválido: desconocido" ∧
    (agregarTransformador [] { cfg7 with manejoNulos := ⟨"imputar", "desconocido", none⟩ } =
        [{ cfg7 with manejoNulos := ⟨"imputar", "desconocido", none⟩ }] ∧
      transformarLimpieza { cfg7 with manejoNulos := ⟨"imputar", "desconocido", none⟩ } datosNulo =
        Except.error ("Error en transformación de limpieza: " ++ "Método de imputación inválido: desconocido")) :=
  ⟨rfl, c6_validacion_diferida [] _ datosNulo _ rfl⟩

/-- C5 counterexample: with the null strategy `marcar` the cleansing
transformer is not idempotent — the second application adds an
`a_es_nulo_es_nulo` marker column for the marker column the first
application added, so the claimed idempotence for "every null strategy,
including marcar" fails. -/
theorem c5_contraejemplo :
    transformarLimpieza cfgMarcar datosNulo =
      Except.ok [[("a", Valor.nulo), ("a_es_nulo", Valor.boolean true)]] ∧
    transformarLimpieza cfgMarcar [[("a", Valor.nulo), ("a_es_nulo", Valor.boolean true)]] =
      Except.ok [[("a", Valor.nulo), ("a_es_nulo", Valor.boolean true),
                  ("a_es_nulo_es_nulo", Valor.boolean false)]] ∧
    limpiar cfgMarcar (limpiar cfgMarcar datosNulo) ≠ limpiar cfgMarcar datosNulo := by
  refine ⟨rfl, rfl, ?_⟩
  decide

/-- C2 counterexample: one extractor yields one record, no transformer is
registered (so the transform phase outputs N = 1 record), and the single
loader raises; the result reports `registros_exitosos = 0`, not the claimed
N = 1 — the `except` branch zeroes every count. -/
theorem c2_contraejemplo :
    (ejecutar cfgPipelineEjemplo [Except.ok datosUno] []
        [fun _ => Except.error "fallo de carga"] []).registrosExitosos = 0 ∧
    (ejecutar cfgPipelineEjemplo [Except.ok datosUno] []
        [fun _ => Except.error "fallo de carga"] []).registrosExitosos ≠ 1 ∧
    (ejecutar cfgPipelineEjemplo [Except.ok datosUno] []
        [fun _ => Except.error "fallo de carga"] []).archivosSalida = [] ∧
    (ejecutar cfgPipelineEjemplo [Except.ok datosUno] []
        [fun _ => Except.error "fallo de carga"] []).errores = ["fallo de carga"] := by
  exact ⟨rfl, by decide, rfl, rfl⟩

/-- C3 counterexample: a transformer that duplicates its input makes
`tasa_exito = 2 > 1` and `registros_fallidos = -1`, refuting the claimed
`0 ≤ success_rate ≤ 1` for arbitrary registered transformers. -/
theorem c3_contraejemplo :
    (ejecutar cfgPipelineEjemplo [Except.ok datosUno]
        [fun d => Except.ok (d ++ d)] [] []).tasaExito = 2 ∧
    ¬ (ejecutar cfgPipelineEjemplo [Except.ok datosUno]
        [fun d => Except.ok (d ++ d)] [] []).tasaExito ≤ 1 ∧
    (ejecutar cfgPipelineEjemplo [Except.ok datosUno]
        [fun d => Except.ok (d ++ d)] [] []).registrosFallidos = -1 := by
  have hnuc : ejecutarNucleo cfgPipelineEjemplo [Except.ok datosUno]
      [fun d => Except.ok (d ++ d)] [] [] =
      Except.ok (datosUno, datosUno ++ datosUno, []) := rfl
  refine ⟨?_, ?_, ?_⟩
  · simp only [ejecutar, hnuc]
    norm_num [datosUno]
  · simp only [ejecutar, hnuc]
    norm_num [datosUno]
  · simp only [ejecutar, hnuc]
    norm_num [datosUno]

/-- Helper: when some registered extractor raises, the extraction phase
returns the first such error. -/
theorem ejecutarExtraccion_error_de_miembro (exts : List Extractor)
    (h : ∃ m, Except.error m ∈ exts) :
    ∃ m, ejecutarExtraccion exts = Except.error m ∧ Except.error m ∈ exts := by
  induction exts with
  | nil =>
      rcases h with ⟨m, hm⟩
      cases hm
  | cons e resto ih =>
      cases e with
      | error m => exact ⟨m, rfl, List.mem_cons_self _ _⟩
      | ok d =>
          rcases h with ⟨m, hm⟩
          rcases List.mem_cons.mp hm with h1 | h2
          · exact absurd h1 (by simp)
          · obtain ⟨m2, hEq, hMem⟩ := ih ⟨m, h2⟩
            refine ⟨m2, ?_, List.mem_cons_of_mem _ hMem⟩
            simp [ejecutarExtraccion, hEq]

/-- C1: whenever some registered extractor raises, `run()` returns normally
with a failed result whose `errores` list has exactly length 1 — the
raising extractor's message — and whose `registros_procesados` and
`registros_exitosos` are both 0. -/
theorem c1_extraccion_falla (cfg : ConfiguracionPipeline) (exts : List Extractor)
    (ts : List Transformador) (cs : List Cargador) (vs : List Validador)
    (h : ∃ m, Except.error m ∈ exts) :
    (ejecutar cfg exts ts cs vs).errores.length = 1 ∧
    (ejecutar cfg exts ts cs vs).registrosProcesados = 0 ∧
    (ejecutar cfg exts ts cs vs).registrosExitosos = 0 ∧
    ∃ m, (ejecutar cfg exts ts cs vs).errores = [m] ∧ Except.error m ∈ exts := by
  obtain ⟨m, hEq, hMem⟩ := ejecutarExtraccion_error_de_miembro exts h
  refine ⟨?_, ?_, ?_, m, ?_, hMem⟩ <;>
    simp [ejecutar, ejecutarNucleo, hEq]

/-- Witness for C1: a failing first extractor followed by a succeeding
one. -/
theorem c1_extraccion_falla_testigo :
    (∃ m, Except.error m ∈ ([Except.error "fallo de extracción", Except.ok datosUno] : List Extractor)) ∧
    ((ejecutar cfgPipelineEjemplo [Except.error "fallo de extracción", Except.ok datosUno] [] [] []).errores.length = 1 ∧
     (ejecutar cfgPipelineEjemplo [Except.error "fallo de extracción", Except.ok datosUno] [] [] []).registrosProcesados = 0 ∧
     (ejecutar cfgPipelineEjemplo [Except.error "fallo de extracción", Except.ok datosUno] [] [] []).registrosExitosos = 0 ∧
     ∃ m, (ejecutar cfgPipelineEjemplo [Except.error "fallo de extracción", Except.ok datosUno] [] [] []).errores = [m] ∧
       Except.error m ∈ ([Except.error "fallo de extracción", Except.ok datosUno] : List Extractor)) := by
  refine ⟨⟨"fallo de extracción", by simp⟩, ?_⟩
  exact c1_extraccion_falla cfgPipelineEjemplo _ [] [] [] ⟨"fallo de extracción", by simp⟩

/-- C2 amended: when extraction, validation and transformation succeed and
a loader then raises, the returned result comes from the `except` branch:
`registros_exitosos = 0` (not the transform-phase count), an empty artifact
list, and `errores` holding exactly the loader's message. -/
theorem c2_carga_falla_cuenta_cero (cfg : ConfiguracionPipeline) (exts : List Extractor)
    (ts : List Transformador) (cs : List Cargador) (vs : List Validador)
    (dIn dOut : List Reg) (m : String)
    (hE : ejecutarExtraccion exts = Except.ok dIn)
    (hVE : ejecutarValidacionEntrada vs dIn = Except.ok ())
    (hT : ejecutarTransformacion ts dIn = Except.ok dOut)
    (hVS : ejecutarValidacionSalida vs dOut = Except.ok ())
    (hC : ejecutarCarga cs dOut = Except.error m) :
    (ejecutar cfg exts ts cs vs).registrosExitosos = 0 ∧
    (ejecutar cfg exts ts cs vs).archivosSalida = [] ∧
    (ejecutar cfg exts ts cs vs).errores = [m] := by
  have h1 : (if cfg.validarEntrada then ejecutarValidacionEntrada vs dIn
      else Except.ok ()) = Except.ok () := by
    cases cfg.validarEntrada <;> simp [hVE]
  have h2 : (if cfg.validarSalida then ejecutarValidacionSalida vs dOut
      else Except.ok ()) = Except.ok () := by
    cases cfg.validarSalida <;> simp [hVS]
  refine ⟨?_, ?_, ?_⟩ <;>
    simp only [ejecutar, ejecutarNucleo, hE, h1, hT, h2, hC]

/-- Witness for C2: one extractor, no transformers (N = 1 output record),
one failing loader. -/
theorem c2_carga_falla_cuenta_cero_testigo :
    ejecutarExtraccion [Except.ok datosUno] = Except.ok datosUno ∧
    ejecutarTransformacion [] datosUno = Except.ok datosUno ∧
    datosUno.length = 1 ∧
    ejecutarCarga [fun _ => Except.error "fallo de carga"] datosUno = Except.error "fallo de carga" ∧
    ((ejecutar cfgPipelineEjemplo [Except.ok datosUno] [] [fun _ => Except.error "fallo de carga"] []).registrosExitosos = 0 ∧
     (ejecutar cfgPipelineEjemplo [Except.ok datosUno] [] [fun _ => Except.error "fallo de carga"] []).archivosSalida = [] ∧
     (ejecutar cfgPipelineEjemplo [Except.ok datosUno] [] [fun _ => Except.error "fallo de carga"] []).errores = ["fallo de carga"]) := by
  refine ⟨rfl, rfl, rfl, rfl, ?_⟩
  exact c2_carga_falla_cuenta_cero cfgPipelineEjemplo _ _ _ _ datosUno datosUno _ rfl rfl rfl rfl rfl

/-- C3 amended: for every run, `registros_fallidos = registros_procesados −
registros_exitosos` and `0 ≤ tasa_exito`, with `tasa_exito =
registros_exitosos / registros_procesados` (0 when no records were
extracted); the upper bound `tasa_exito ≤ 1` holds whenever
`registros_exitosos ≤ registros_procesados` — but not in general, see the
counterexample. -/
theorem c3_contabilidad_resultado (cfg : ConfiguracionPipeline) (exts : List Extractor)
    (ts : List Transformador) (cs : List Cargador) (vs : List Validador) :
    (ejecutar cfg exts ts cs vs).registrosFallidos =
      ((ejecutar cfg exts ts cs vs).registrosProcesados : Int) -
        ((ejecutar cfg exts ts cs vs).registrosExitosos : Int) ∧
    0 ≤ (ejecutar cfg exts ts cs vs).tasaExito ∧
    (ejecutar cfg exts ts cs vs).tasaExito =
      (if (ejecutar cfg exts ts cs vs).registrosProcesados = 0 then 0
       else ((ejecutar cfg exts ts cs vs).registrosExitosos : Rat) /
            ((ejecutar cfg exts ts cs vs).registrosProcesados : Rat)) ∧
    ((ejecutar cfg exts ts cs vs).registrosExitosos ≤ (ejecutar cfg exts ts cs vs).registrosProcesados →
      (ejecutar cfg exts ts cs vs).tasaExito ≤ 1) := by
  unfold ejecutar
  cases h : ejecutarNucleo cfg exts ts cs vs with
  | error e => simp
  | ok salida =>
      obtain ⟨dIn, dOut, arch⟩ := salida
      cases dIn with
      | nil => simp
      | cons r resto =>
          simp only [List.isEmpty_cons, List.length_cons, Bool.false_eq_true, if_false,
            Nat.succ_ne_zero]
          have hpos : (0 : Rat) < ((resto.length + 1 : Nat) : Rat) := by positivity
          refine ⟨trivial, ?_, ?_, ?_⟩
          · exact div_nonneg (by positivity) (le_of_lt hpos)
          · simp
          · intro hle
            rw [div_le_one hpos]
            exact_mod_cast hle

/-- Witness for C3: a run with one extracted and one transformed record. -/
theorem c3_contabilidad_resultado_testigo :
    (ejecutar cfgPipelineEjemplo [Except.ok datosUno] [] [] []).registrosExitosos ≤
      (ejecutar cfgPipelineEjemplo [Except.ok datosUno] [] [] []).registrosProcesados ∧
    (ejecutar cfgPipelineEjemplo [Except.ok datosUno] [] [] []).registrosFallidos =
      ((ejecutar cfgPipelineEjemplo [Except.ok datosUno] [] [] []).registrosProcesados : Int) -
        ((ejecutar cfgPipelineEjemplo [Except.ok datosUno] [] [] []).registrosExitosos : Int) ∧
    0 ≤ (ejecutar cfgPipelineEjemplo [Except.ok datosUno] [] [] []).tasaExito ∧
    (ejecutar cfgPipelineEjemplo [Except.ok datosUno] [] [] []).tasaExito ≤ 1 := by
  have hle : (ejecutar cfgPipelineEjemplo [Except.ok datosUno] [] [] []).registrosExitosos ≤
      (ejecutar cfgPipelineEjemplo [Except.ok datosUno] [] [] []).registrosProcesados := by decide
  obtain ⟨h1, h2, h3, h4⟩ := c3_contabilidad_resultado cfgPipelineEjemplo [Except.ok datosUno] [] [] []
  exact ⟨hle, h1, h2, h4 hle⟩

/-- Helper: the keep-first walk depends on its seen-key set only up to
membership. -/
theorem filasKeepFirstGo_congruente (clave : Fila → List Valor) (resto : List Fila) :
    ∀ v1 v2 : List (List Valor), (∀ k, k ∈ v1 ↔ k ∈ v2) →
      filasKeepFirstGo clave v1 resto = filasKeepFirstGo clave v2 resto := by
  induction resto with
  | nil => intro v1 v2 h; rfl
  | cons f resto ih =>
      intro v1 v2 h
      by_cases hm : clave f ∈ v1
      · rw [filasKeepFirstGo, if_pos hm, filasKeepFirstGo, if_pos ((h (clave f)).mp hm),
          ih v1 v2 h]
      · rw [filasKeepFirstGo, if_neg hm, filasKeepFirstGo,
          if_neg (fun hc => hm ((h (clave f)).mpr hc))]
        have h2 : ∀ k, k ∈ v1 ++ [clave f] ↔ k ∈ v2 ++ [clave f] := by
          intro k
          simp [h k]
        rw [ih (v1 ++ [clave f]) (v2 ++ [clave f]) h2]

/-- Helper: the keep-first walk equals the spec-side "no key-equal earlier
record" filter. -/
theorem filasKeepFirstGo_especificacion (clave : Fila → List Valor) (resto : List Fila) :
    ∀ antes : List Fila,
      filasKeepFirstGo clave (antes.map clave) resto = sinDuplicadosAntes clave antes resto := by
  induction resto with
  | nil => intro antes; rfl
  | cons f resto ih =>
      intro antes
      have hmap : (antes ++ [f]).map clave = antes.map clave ++ [clave f] := by simp
      by_cases h : ∃ g ∈ antes, clave g = clave f
      · have hmem : clave f ∈ antes.map clave := by
          obtain ⟨g, hg, he⟩ := h
          exact he ▸ List.mem_map_of_mem clave hg
        rw [filasKeepFirstGo, if_pos hmem, sinDuplicadosAntes, if_pos h, ← ih (antes ++ [f]),
          hmap]
        refine filasKeepFirstGo_congruente clave resto _ _ ?_
        intro k
        constructor
        · intro hk
          exact List.mem_append_left _ hk
        · intro hk
          rcases List.mem_append.mp hk with hk | hk
          · exact hk
          · rw [List.mem_singleton.mp hk]
            exact hmem
      · have hmem : clave f ∉ antes.map clave := by
          intro hc
          obtain ⟨g, hg, he⟩ := List.mem_map.mp hc
          exact h ⟨g, hg, he⟩
        rw [filasKeepFirstGo, if_neg hmem, sinDuplicadosAntes, if_neg h, ← ih (antes ++ [f]),
          hmap]

/-- C8: under keep-first duplicate handling, for every frame and every
dedupe key (full record when `subset = none`, the configured field subset
otherwise), the surviving rows are exactly those with no key-equal earlier
row, in their original relative order — so of any key-equal pair only the
lower-index row survives. -/
theorem c8_mantener_primero_especificacion (subset : Option (List String)) (df : Df) :
    manejarDuplicados { habilitado := true, mantener := "primero", subset := subset } df =
      { cols := df.cols,
        rows := sinDuplicadosAntes (claveFila subset df.cols) [] df.rows } := by
  have h := filasKeepFirstGo_especificacion (claveFila subset df.cols) df.rows []
  simp only [List.map_nil] at h
  simp only [manejarDuplicados, filasKeepFirst]
  rw [h]
  simp

/-- Helper: a list of naturals each bounded by `k` sums to at most
`length * k`. -/
theorem suma_acotada (l : List Nat) (k : Nat) (h : ∀ x ∈ l, x ≤ k) :
    l.sum ≤ l.length * k := by
  induction l with
  | nil => simp
  | cons x xs ih =>
      simp only [List.sum_cons, List.length_cons]
      have h1 : x ≤ k := h x (List.mem_cons_self _ _)
      have h2 : xs.sum ≤ xs.length * k := ih (fun y hy => h y (List.mem_cons_of_mem _ hy))
      calc x + xs.sum ≤ k + xs.length * k := Nat.add_le_add h1 h2
        _ = (xs.length + 1) * k := by ring

/-- Helper: the duplicate count never exceeds the number of rows. -/
theorem contarDuplicadasDesde_le (resto : List Fila) :
    ∀ antes, contarDuplicadasDesde antes resto ≤ resto.length := by
  induction resto with
  | nil => intro antes; simp [contarDuplicadasDesde]
  | cons f resto ih =>
      intro antes
      simp only [contarDuplicadasDesde, List.length_cons]
      have := ih (antes ++ [f])
      split <;> omega

/-- Helper: each column scores at most the 3 criteria. -/
theorem puntuacionColumna_le_tres (n : Nat) (vals : List Valor) :
    puntuacionColumna n vals ≤ 3 := by
  unfold puntuacionColumna
  split_ifs <;> simp_all

/-- Helper: rounding to two decimals keeps `[0, 100]`. -/
theorem redondear2_en_rango {x : Rat} (h0 : 0 ≤ x) (h1 : x ≤ 100) :
    0 ≤ redondear2 x ∧ redondear2 x ≤ 100 := by
  unfold redondear2
  have hl : (0 : Int) ≤ round (x * 100) := by
    have h2 : round ((0 : Rat)) ≤ round (x * 100) := by
      rw [round_eq, round_eq]
      exact Int.floor_mono (by linarith)
    simpa using h2
  have hu : round (x * 100) ≤ (10000 : Int) := by
    have h2 : round (x * 100) ≤ round (((10000 : Int) : Rat)) := by
      rw [round_eq, round_eq]
      refine Int.floor_mono ?_
      push_cast
      linarith
    rw [round_intCast] at h2
    exact h2
  constructor
  · exact div_nonneg (by exact_mod_cast hl) (by norm_num)
  · rw [div_le_iff₀ (by norm_num : (0 : Rat) < 100)]
    calc ((round (x * 100) : Int) : Rat) ≤ ((10000 : Int) : Rat) := by exact_mod_cast hu
      _ = 100 * 100 := by norm_num

/-- Helper: the precision heuristic lies in `[0, 100]`. -/
theorem calcularPrecisionDatos_en_rango (df : Df) :
    0 ≤ calcularPrecisionDatos df ∧ calcularPrecisionDatos df ≤ 100 := by
  unfold calcularPrecisionDatos
  dsimp only
  split_ifs with h
  · norm_num
  · have hc : 0 < df.cols.length := Nat.pos_of_ne_zero h
    set S : Nat := (df.cols.map (fun c => puntuacionColumna df.rows.length (columna df c))).sum with hS
    have hSle : S ≤ df.cols.length * 3 := by
      have := suma_acotada (df.cols.map (fun c => puntuacionColumna df.rows.length (columna df c))) 3 ?_
      · simpa [List.length_map] using this
      · intro x hx
        obtain ⟨c, hcm, rfl⟩ := List.mem_map.mp hx
        exact puntuacionColumna_le_tres _ _
    have hden : (0 : Rat) < (df.cols.length : Rat) * 3 := by positivity
    constructor
    · have : (0 : Rat) ≤ (S : Rat) / ((df.cols.length : Rat) * 3) :=
        div_nonneg (by positivity) (le_of_lt hden)
      positivity
    · have hratio : (S : Rat) / ((df.cols.length : Rat) * 3) ≤ 1 := by
        rw [div_le_one hden]
        calc (S : Rat) ≤ ((df.cols.length * 3 : Nat) : Rat) := by exact_mod_cast hSle
          _ = (df.cols.length : Rat) * 3 := by push_cast; ring
      calc (S : Rat) / ((df.cols.length : Rat) * 3) * 100 ≤ 1 * 100 := by
            exact mul_le_mul_of_nonneg_right hratio (by norm_num)
        _ = 100 := by norm_num

/-- Helper: every row of `pd.DataFrame(datos)` has one cell per column. -/
theorem dfDeRegistros_longitud_filas (datos : List Reg) :
    ∀ fila ∈ (dfDeRegistros datos).rows, fila.length = (dfDeRegistros datos).cols.length := by
  intro fila hf
  simp only [dfDeRegistros, List.mem_map] at hf
  obtain ⟨r, hr, rfl⟩ := hf
  simp [dfDeRegistros]

/-- C4: for every record set the quality scorer returns completeness,
consistency and precision each in the closed interval `[0, 100]` — the
completeness/consistency ratios are scaled by 100 and the precision
averages the per-column 3-criterion score. -/
theorem c4_metricas_en_rango (datos : List Reg) :
    (0 ≤ (calcularMetricasCalidad datos).completitud ∧
      (calcularMetricasCalidad datos).completitud ≤ 100) ∧
    (0 ≤ (calcularMetricasCalidad datos).consistencia ∧
      (calcularMetricasCalidad datos).consistencia ≤ 100) ∧
    (0 ≤ (calcularMetricasCalidad datos).precision ∧
      (calcularMetricasCalidad datos).precision ≤ 100) := by
  by_cases h : datos.isEmpty
  · simp [calcularMetricasCalidad, h]
  · unfold calcularMetricasCalidad
    rw [if_neg (by simpa using h)]
    dsimp only
    set df := dfDeRegistros datos with hdf
    set totalCeldas : Nat := df.rows.length * df.cols.length with hT
    set celdasNulas : Nat :=
      (df.rows.map (fun fila => (fila.filter (fun v => v == Valor.nulo)).length)).sum with hN
    set registrosDuplicados : Nat := contarDuplicadas df.rows with hD
    have hNle : celdasNulas ≤ totalCeldas := by
      rw [hN, hT]
      have := suma_acotada
        (df.rows.map (fun fila => (fila.filter (fun v => v == Valor.nulo)).length))
        df.cols.length ?_
      · simpa [List.length_map] using this
      · intro x hx
        obtain ⟨fila, hfm, rfl⟩ := List.mem_map.mp hx
        calc (fila.filter (fun v => v == Valor.nulo)).length ≤ fila.length :=
              List.length_filter_le _ _
          _ = df.cols.length := dfDeRegistros_longitud_filas datos fila hfm
    have hDle : registrosDuplicados ≤ df.rows.length := contarDuplicadasDesde_le df.rows []
    have hcompl : 0 ≤ (if 0 < totalCeldas then
        (((totalCeldas : Rat) - (celdasNulas : Rat)) / (totalCeldas : Rat)) * 100 else 0) ∧
        (if 0 < totalCeldas then
        (((totalCeldas : Rat) - (celdasNulas : Rat)) / (totalCeldas : Rat)) * 100 else 0) ≤ 100 := by
      split_ifs with hpos
      · have hTpos : (0 : Rat) < (totalCeldas : Rat) := by exact_mod_cast hpos
        have hnum : (0 : Rat) ≤ (totalCeldas : Rat) - (celdasNulas : Rat) := by
          have : (celdasNulas : Rat) ≤ (totalCeldas : Rat) := by exact_mod_cast hNle
          linarith
        constructor
        · positivity
        · have hr : ((totalCeldas : Rat) - (celdasNulas : Rat)) / (totalCeldas : Rat) ≤ 1 := by
            rw [div_le_one hTpos]
            have : (0 : Rat) ≤ (celdasNulas : Rat) := by positivity
            linarith
          calc ((totalCeldas : Rat) - (celdasNulas : Rat)) / (totalCeldas : Rat) * 100
              ≤ 1 * 100 := mul_le_mul_of_nonneg_right hr (by norm_num)
            _ = 100 := by norm_num
      · norm_num
    have hcons : 0 ≤ (if 0 < df.rows.length then
        (((df.rows.length : Rat) - (registrosDuplicados : Rat)) / (df.rows.length : Rat)) * 100 else 0) ∧
        (if 0 < df.rows.length then
        (((df.rows.length : Rat) - (registrosDuplicados : Rat)) / (df.rows.length : Rat)) * 100 else 0) ≤ 100 := by
      split_ifs with hpos
      · have hTpos : (0 : Rat) < (df.rows.length : Rat) := by exact_mod_cast hpos
        have hnum : (0 : Rat) ≤ (df.rows.length : Rat) - (registrosDuplicados : Rat) := by
          have : (registrosDuplicados : Rat) ≤ (df.rows.length : Rat) := by exact_mod_cast hDle
          linarith
        constructor
        · positivity
        · have hr : ((df.rows.length : Rat) - (registrosDuplicados : Rat)) / (df.rows.length : Rat) ≤ 1 := by
            rw [div_le_one hTpos]
            have : (0 : Rat) ≤ (registrosDuplicados : Rat) := by positivity
            linarith
          calc ((df.rows.length : Rat) - (registrosDuplicados : Rat)) / (df.rows.length : Rat) * 100
              ≤ 1 * 100 := mul_le_mul_of_nonneg_right hr (by norm_num)
            _ = 100 := by norm_num
      · norm_num
    have hprec := calcularPrecisionDatos_en_rango df
    refine ⟨redondear2_en_rango hcompl.1 hcompl.2, redondear2_en_rango hcons.1 hcons.2,
      redondear2_en_rango hprec.1 hprec.2⟩

/-- Helper: the keep-first walk returns a subset of its input rows. -/
theorem mem_filasKeepFirstGo (clave : Fila → List Valor) (filas : List Fila) :
    ∀ vistas f, f ∈ filasKeepFirstGo clave vistas filas → f ∈ filas := by
  induction filas with
  | nil => intro vistas f h; exact absurd h (by simp [filasKeepFirstGo])
  | cons g resto ih =>
      intro vistas f h
      rw [filasKeepFirstGo] at h
      split at h
      · exact List.mem_cons_of_mem _ (ih _ f h)
      · rcases List.mem_cons.mp h with h1 | h2
        · exact h1 ▸ List.mem_cons_self _ _
        · exact List.mem_cons_of_mem _ (ih _ f h2)

/-- Helper: the keep-first walk yields pairwise-distinct keys, none of them
already seen. -/
theorem filasKeepFirstGo_claves (clave : Fila → List Valor) (filas : List Fila) :
    ∀ vistas, ((filasKeepFirstGo clave vistas filas).map clave).Nodup ∧
      ∀ f ∈ filasKeepFirstGo clave vistas filas, clave f ∉ vistas := by
  induction filas with
  | nil => intro vistas; simp [filasKeepFirstGo]
  | cons g resto ih =>
      intro vistas
      rw [filasKeepFirstGo]
      split
      · obtain ⟨h1, h2⟩ := ih vistas
        exact ⟨h1, fun f hf => h2 f hf⟩
      · rename_i hns
        obtain ⟨h1, h2⟩ := ih (vistas ++ [clave g])
        constructor
        · simp only [List.map_cons, List.nodup_cons]
          refine ⟨?_, h1⟩
          intro hc
          obtain ⟨f, hf, he⟩ := List.mem_map.mp hc
          have := h2 f hf
          simp [he] at this
        · intro f hf
          rcases List.mem_cons.mp hf with h3 | h4
          · rw [h3]; exact hns
          · intro hc
            exact (h2 f h4) (List.mem_append_left _ hc)

/-- Helper: the keep-first walk is the identity on key-distinct rows whose
keys are unseen. -/
theorem filasKeepFirstGo_noop (clave : Fila → List Valor) (filas : List Fila) :
    ∀ vistas, (filas.map clave).Nodup → (∀ f ∈ filas, clave f ∉ vistas) →
      filasKeepFirstGo clave vistas filas = filas := by
  induction filas with
  | nil => intro vistas h1 h2; rfl
  | cons g resto ih =>
      intro vistas h1 h2
      rw [filasKeepFirstGo, if_neg (h2 g (List.mem_cons_self _ _))]
      congr 1
      refine ih _ (by simp_all) ?_
      intro f hf
      intro hc
      rcases List.mem_append.mp hc with h3 | h4
      · exact h2 f (List.mem_cons_of_mem _ hf) h3
      · simp only [List.mem_singleton] at h4
        simp only [List.map_cons, List.nodup_cons] at h1
        exact h1.1 (h4 ▸ List.mem_map_of_mem clave hf)

/-- Helper: `keep=first` deduplication is idempotent. -/
theorem filasKeepFirst_idem (clave : Fila → List Valor) (filas : List Fila) :
    filasKeepFirst clave (filasKeepFirst clave filas) = filasKeepFirst clave filas := by
  unfold filasKeepFirst
  exact filasKeepFirstGo_noop clave _ []
    (filasKeepFirstGo_claves clave filas []).1 (by simp)

/-- Helper: `keep=last` deduplication is idempotent. -/
theorem filasKeepLast_idem (clave : Fila → List Valor) (filas : List Fila) :
    filasKeepLast clave (filasKeepLast clave filas) = filasKeepLast clave filas := by
  unfold filasKeepLast
  rw [List.reverse_reverse, filasKeepFirst_idem]

/-- Helper: filtering first can only shrink a filtered length. -/
theorem length_filter_filter_le {α : Type} (p q : α → Bool) (l : List α) :
    ((l.filter p).filter q).length ≤ (l.filter q).length := by
  induction l with
  | nil => simp
  | cons x xs ih =>
      by_cases hp : p x = true <;> by_cases hq : q x = true <;>
        simp only [List.filter_cons, hp, hq, if_true, if_false, List.length_cons,
          ite_true, ite_false, Bool.false_eq_true] <;>
        omega

/-- Helper: `keep=False` deduplication is idempotent. -/
theorem filasKeepNone_idem (clave : Fila → List Valor) (filas : List Fila) :
    filasKeepNone clave (filasKeepNone clave filas) = filasKeepNone clave filas := by
  unfold filasKeepNone
  rw [List.filter_eq_self]
  intro f hf
  have hmem := (List.mem_filter.mp hf).1
  have hone := (List.mem_filter.mp hf).2
  have hle := length_filter_filter_le
    (fun g => (filas.filter (fun h => clave h == clave g)).length == 1)
    (fun g => clave g == clave f) filas
  have hmemf : f ∈ (filas.filter
      (fun g => (filas.filter (fun h => clave h == clave g)).length == 1)).filter
      (fun g => clave g == clave f) := by
    rw [List.mem_filter]
    exact ⟨hf, by simp⟩
  have hge := List.length_pos_of_mem hmemf
  simp only [beq_iff_eq] at hone ⊢
  omega

/-- Helper: duplicate handling never changes the column list. -/
theorem manejarDuplicados_cols (cfgD : ConfigDuplicados) (df : Df) :
    (manejarDuplicados cfgD df).cols = df.cols := by
  unfold manejarDuplicados
  split_ifs <;> rfl

/-- Helper: duplicate handling returns a subset of the input rows. -/
theorem mem_manejarDuplicados (cfgD : ConfigDuplicados) (df : Df) (f : Fila)
    (h : f ∈ (manejarDuplicados cfgD df).rows) : f ∈ df.rows := by
  unfold manejarDuplicados at h
  split_ifs at h
  · exact mem_filasKeepFirstGo _ _ [] f h
  · have h1 := List.mem_reverse.mp h
    have h2 := mem_filasKeepFirstGo _ _ [] f h1
    exact List.mem_reverse.mp h2
  · exact (List.mem_filter.mp h).1
  · exact h

/-- Helper: `_manejar_duplicados` is idempotent for every keep policy. -/
theorem manejarDuplicados_idem (cfgD : ConfigDuplicados) (df : Df) :
    manejarDuplicados cfgD (manejarDuplicados cfgD df) = manejarDuplicados cfgD df := by
  unfold manejarDuplicados
  split_ifs <;> dsimp only <;>
    first
      | rw [filasKeepFirst_idem]
      | rw [filasKeepLast_idem]
      | rw [filasKeepNone_idem]

/-- Helper: folding a record into a duplicate-free column list keeps it
duplicate-free. -/
theorem agregarClaves_nodup (r : Reg) :
    ∀ acc : List String, acc.Nodup →
      (r.foldl (fun acc2 kv => if kv.1 ∈ acc2 then acc2 else acc2 ++ [kv.1]) acc).Nodup := by
  induction r with
  | nil => intro acc h; exact h
  | cons kv r ih =>
      intro acc h
      simp only [List.foldl_cons]
      by_cases hm : kv.1 ∈ acc
      · rw [if_pos hm]; exact ih acc h
      · rw [if_neg hm]
        refine ih _ ?_
        simp [List.nodup_append, h, hm]

/-- Helper: the inferred column list of `pd.DataFrame` has no duplicates. -/
theorem columnasDe_nodup (datos : List Reg) : (columnasDe datos).Nodup := by
  suffices h : ∀ acc : List String, acc.Nodup →
      (datos.foldl
        (fun acc r => r.foldl (fun acc2 kv => if kv.1 ∈ acc2 then acc2 else acc2 ++ [kv.1]) acc)
        acc).Nodup by
    exact h [] List.nodup_nil
  induction datos with
  | nil => intro acc h; exact h
  | cons r resto ih =>
      intro acc h
      simp only [List.foldl_cons]
      exact ih _ (agregarClaves_nodup r acc h)

/-- Helper: the column-collection fold only depends on the record keys. -/
theorem foldClaves_eq_mapFst (r : Reg) :
    ∀ acc : List String,
      r.foldl (fun acc2 kv => if kv.1 ∈ acc2 then acc2 else acc2 ++ [kv.1]) acc =
      (r.map Prod.fst).foldl (fun acc2 k => if k ∈ acc2 then acc2 else acc2 ++ [k]) acc := by
  induction r with
  | nil => intro acc; rfl
  | cons kv r ih =>
      intro acc
      simp only [List.foldl_cons, List.map_cons]
      by_cases hm : kv.1 ∈ acc
      · rw [if_pos hm]; exact ih acc
      · rw [if_neg hm]; exact ih _

/-- Helper: collecting keys already present changes nothing. -/
theorem foldClaves_sub (ks : List String) :
    ∀ acc : List String, (∀ k ∈ ks, k ∈ acc) →
      ks.foldl (fun acc2 k => if k ∈ acc2 then acc2 else acc2 ++ [k]) acc = acc := by
  induction ks with
  | nil => intro acc h; rfl
  | cons k ks ih =>
      intro acc h
      simp only [List.foldl_cons, if_pos (h k (List.mem_cons_self _ _))]
      exact ih acc (fun k2 hk2 => h k2 (List.mem_cons_of_mem _ hk2))

/-- Helper: collecting fresh, duplicate-free keys appends them in order. -/
theorem foldClaves_nuevo (ks : List String) :
    ∀ acc : List String, (∀ k ∈ ks, k ∉ acc) → ks.Nodup →
      ks.foldl (fun acc2 k => if k ∈ acc2 then acc2 else acc2 ++ [k]) acc = acc ++ ks := by
  induction ks with
  | nil => intro acc h hn; simp
  | cons k ks ih =>
      intro acc h hn
      simp only [List.foldl_cons, if_neg (h k (List.mem_cons_self _ _))]
      rw [ih (acc ++ [k]) ?_ (List.nodup_cons.mp hn).2]
      · simp
      · intro k2 hk2 hc
        rcases List.mem_append.mp hc with h1 | h2
        · exact h k2 (List.mem_cons_of_mem _ hk2) h1
        · rw [List.mem_singleton] at h2
          exact (List.nodup_cons.mp hn).1 (h2 ▸ hk2)

/-- Helper: `pd.DataFrame` of `to_dict(records)` recovers the column list
of a well-formed frame. -/
theorem columnasDe_registrosDeDf (df : Df) (hN : df.cols.Nodup)
    (hLen : ∀ fila ∈ df.rows, fila.length = df.cols.length)
    (hNe : df.rows ≠ []) :
    columnasDe (registrosDeDf df) = df.cols := by
  obtain ⟨cols, rows⟩ := df
  simp only at hLen hN hNe ⊢
  cases rows with
  | nil => exact absurd rfl hNe
  | cons f resto =>
      unfold columnasDe registrosDeDf
      simp only [List.map_cons, List.foldl_cons]
      rw [foldClaves_eq_mapFst,
        List.map_fst_zip cols f (le_of_eq (hLen f (List.mem_cons_self _ _)).symm),
        foldClaves_nuevo cols [] (by simp) hN, List.nil_append]
      suffices h : ∀ rs : List Fila, (∀ fila ∈ rs, fila.length = cols.length) →
          (rs.map (fun fila => cols.zip fila)).foldl
            (fun acc r => r.foldl (fun acc2 kv => if kv.1 ∈ acc2 then acc2 else acc2 ++ [kv.1]) acc)
            cols = cols by
        exact h resto (fun fila hf => hLen fila (List.mem_cons_of_mem _ hf))
      intro rs
      induction rs with
      | nil => intro h2; rfl
      | cons fila rs ih =>
          intro h2
          simp only [List.map_cons, List.foldl_cons]
          rw [foldClaves_eq_mapFst,
            List.map_fst_zip cols fila (le_of_eq (h2 fila (List.mem_cons_self _ _)).symm),
            foldClaves_sub cols cols (fun k hk => hk)]
          exact ih (fun fila2 hf => h2 fila2 (List.mem_cons_of_mem _ hf))

/-- Helper: looking every column up in a full record recovers the row. -/
theorem mapa_buscar (cols : List String) :
    ∀ fila : Fila, cols.Nodup → fila.length = cols.length →
      cols.map (fun c => buscarValor (cols.zip fila) c) = fila := by
  induction cols with
  | nil =>
      intro fila h hl
      cases fila with
      | nil => rfl
      | cons v vs => simp at hl
  | cons c cs ih =>
      intro fila h hl
      cases fila with
      | nil => simp at hl
      | cons v vs =>
          simp only [List.zip_cons_cons, List.map_cons]
          have hhead : buscarValor ((c, v) :: cs.zip vs) c = v := by
            unfold buscarValor
            simp [List.find?]
          rw [hhead]
          congr 1
          have hcs : ∀ c2 ∈ cs,
              buscarValor ((c, v) :: cs.zip vs) c2 = buscarValor (cs.zip vs) c2 := by
            intro c2 hc2
            have hne : (c == c2) = false := by
              have : c ≠ c2 := fun he => (List.nodup_cons.mp h).1 (he ▸ hc2)
              simpa using this
            unfold buscarValor
            simp [List.find?, hne]
          rw [List.map_congr_left hcs]
          exact ih vs (List.nodup_cons.mp h).2 (by simpa using hl)

/-- Helper: DataFrame round-trip — `pd.DataFrame(df.to_dict(records))`
is `df` for a nonempty well-formed frame. -/
theorem dfDeRegistros_registrosDeDf (df : Df) (hN : df.cols.Nodup)
    (hLen : ∀ fila ∈ df.rows, fila.length = df.cols.length)
    (hNe : df.rows ≠ []) :
    dfDeRegistros (registrosDeDf df) = df := by
  have hcols := columnasDe_registrosDeDf df hN hLen hNe
  obtain ⟨cols, rows⟩ := df
  simp only at hcols hLen hN ⊢
  unfold dfDeRegistros
  dsimp only
  rw [hcols]
  unfold registrosDeDf
  dsimp only
  rw [List.map_map]
  have : ∀ fila ∈ rows,
      ((fun r => cols.map (fun c => buscarValor r c)) ∘ (fun fila => cols.zip fila)) fila = fila := by
    intro fila hf
    simp only [Function.comp]
    exact mapa_buscar cols fila hN (hLen fila hf)
  rw [List.map_congr_left this]
  simp

/-- Helper: the `eliminar` null strategy is `dropna`, a row filter. -/
theorem manejarNulos_eliminar (cfgN : ConfigNulos) (h : cfgN.estrategia = "eliminar") (df : Df) :
    manejarValoresNulos cfgN df =
      { df with rows := df.rows.filter (fun fila => fila.all (fun v => !(v == Valor.nulo))) } := by
  unfold manejarValoresNulos
  simp [h]

/-- Helper: rule validation with empty rule sets is the identity. -/
theorem validarDatos_sin_reglas (cfgV : ConfigValidacion) (hR : cfgV.rangosNumericos = [])
    (hV : cfgV.valoresPermitidos = []) (hL : cfgV.longitudTexto = []) (df : Df) :
    validarDatos cfgV df = df := by
  unfold validarDatos
  rw [hR, hV, hL]
  rfl

/-- Helper: with text/date normalization, outliers and rules off, the stage
pipeline reduces to optional deduplication after null handling. -/
theorem aplicarLimpieza_reducida (cfg : ConfigLimpieza) (df : Df)
    (hTex : cfg.normalizacionTexto.habilitada = false)
    (hFec : cfg.normalizacionFechas.habilitada = false)
    (hOut : cfg.manejoOutliers.habilitado = false)
    (hR : cfg.validacionDatos.rangosNumericos = [])
    (hV : cfg.validacionDatos.valoresPermitidos = [])
    (hL : cfg.validacionDatos.longitudTexto = []) :
    aplicarLimpieza cfg df =
      (if cfg.manejoDuplicados.habilitado then
        manejarDuplicados cfg.manejoDuplicados (manejarValoresNulos cfg.manejoNulos df)
       else manejarValoresNulos cfg.manejoNulos df) := by
  unfold aplicarLimpieza
  simp only [hTex, hFec, hOut, Bool.false_eq_true, if_false]
  cases hVal : cfg.validacionDatos.habilitada
  · simp only [Bool.false_eq_true, if_false]
  · simp only [if_true]
    exact validarDatos_sin_reglas _ hR hV hL _

/-- Helper: the record-level cleansing computation is idempotent for the
restricted configurations of the amended C5. -/
theorem limpiar_idempotente (cfg : ConfigLimpieza) (datos : List Reg)
    (hEstr : cfg.manejoNulos.estrategia = "eliminar")
    (hTex : cfg.normalizacionTexto.habilitada = false)
    (hFec : cfg.normalizacionFechas.habilitada = false)
    (hOut : cfg.manejoOutliers.habilitado = false)
    (hR : cfg.validacionDatos.rangosNumericos = [])
    (hV : cfg.validacionDatos.valoresPermitidos = [])
    (hL : cfg.validacionDatos.longitudTexto = []) :
    limpiar cfg (limpiar cfg datos) = limpiar cfg datos := by
  by_cases hd : datos.isEmpty
  · have h0 : limpiar cfg datos = [] := by rw [limpiar, if_pos hd]
    rw [h0, limpiar]
    simp
  · have h0 : limpiar cfg datos = registrosDeDf (aplicarLimpieza cfg (dfDeRegistros datos)) := by
      rw [limpiar, if_neg hd]
    have hred := aplicarLimpieza_reducida cfg (dfDeRegistros datos) hTex hFec hOut hR hV hL
    have hnulos : ∀ fila ∈ (aplicarLimpieza cfg (dfDeRegistros datos)).rows,
        (fila.all (fun v => !(v == Valor.nulo))) = true := by
      intro fila hf
      rw [hred] at hf
      by_cases hdup : cfg.manejoDuplicados.habilitado
      · rw [if_pos hdup] at hf
        have hf2 := mem_manejarDuplicados _ _ _ hf
        rw [manejarNulos_eliminar _ hEstr] at hf2
        exact (List.mem_filter.mp hf2).2
      · rw [if_neg hdup] at hf
        rw [manejarNulos_eliminar _ hEstr] at hf
        exact (List.mem_filter.mp hf).2
    have hsub : ∀ fila ∈ (aplicarLimpieza cfg (dfDeRegistros datos)).rows,
        fila ∈ (dfDeRegistros datos).rows := by
      intro fila hf
      rw [hred] at hf
      by_cases hdup : cfg.manejoDuplicados.habilitado
      · rw [if_pos hdup] at hf
        have hf2 := mem_manejarDuplicados _ _ _ hf
        rw [manejarNulos_eliminar _ hEstr] at hf2
        exact (List.mem_filter.mp hf2).1
      · rw [if_neg hdup] at hf
        rw [manejarNulos_eliminar _ hEstr] at hf
        exact (List.mem_filter.mp hf).1
    have hcols1 : (aplicarLimpieza cfg (dfDeRegistros datos)).cols = (dfDeRegistros datos).cols := by
      rw [hred]
      by_cases hdup : cfg.manejoDuplicados.habilitado
      · rw [if_pos hdup, manejarDuplicados_cols, manejarNulos_eliminar _ hEstr]
      · rw [if_neg hdup, manejarNulos_eliminar _ hEstr]
    have hcols0 : (dfDeRegistros datos).cols = columnasDe datos := rfl
    cases h1 : (aplicarLimpieza cfg (dfDeRegistros datos)).rows with
    | nil =>
        have hvacio : registrosDeDf (aplicarLimpieza cfg (dfDeRegistros datos)) = [] := by
          unfold registrosDeDf
          rw [h1]
          rfl
        rw [h0, hvacio, limpiar]
        simp
    | cons f resto =>
        have hne : (aplicarLimpieza cfg (dfDeRegistros datos)).rows ≠ [] := by
          rw [h1]
          simp
        have hNodup : (aplicarLimpieza cfg (dfDeRegistros datos)).cols.Nodup := by
          rw [hcols1, hcols0]
          exact columnasDe_nodup datos
        have hLenr : ∀ fila ∈ (aplicarLimpieza cfg (dfDeRegistros datos)).rows,
            fila.length = (aplicarLimpieza cfg (dfDeRegistros datos)).cols.length := by
          intro fila hf
          rw [hcols1]
          exact dfDeRegistros_longitud_filas datos fila (hsub fila hf)
        have hrt := dfDeRegistros_registrosDeDf _ hNodup hLenr hne
        have hlimpio1ne : (registrosDeDf (aplicarLimpieza cfg (dfDeRegistros datos))).isEmpty = false := by
          unfold registrosDeDf
          rw [h1]
          rfl
        rw [h0, limpiar, if_neg (by simp [hlimpio1ne]), hrt]
        congr 1
        rw [aplicarLimpieza_reducida cfg _ hTex hFec hOut hR hV hL]
        have hnul1 : manejarValoresNulos cfg.manejoNulos (aplicarLimpieza cfg (dfDeRegistros datos)) =
            aplicarLimpieza cfg (dfDeRegistros datos) := by
          rw [manejarNulos_eliminar _ hEstr]
          have hfe : (aplicarLimpieza cfg (dfDeRegistros datos)).rows.filter
              (fun fila => fila.all (fun v => !(v == Valor.nulo))) =
              (aplicarLimpieza cfg (dfDeRegistros datos)).rows :=
            List.filter_eq_self.mpr hnulos
          rw [hfe]
        rw [hnul1]
        by_cases hdup : cfg.manejoDuplicados.habilitado
        · rw [if_pos hdup]
          have hdf1 : aplicarLimpieza cfg (dfDeRegistros datos) =
              manejarDuplicados cfg.manejoDuplicados
                (manejarValoresNulos cfg.manejoNulos (dfDeRegistros datos)) := by
            rw [hred, if_pos hdup]
          rw [hdf1]
          exact manejarDuplicados_idem _ _
        · rw [if_neg hdup]

/-- C5 amended: for every configuration with null strategy `eliminar`,
text/date normalization disabled, outlier handling disabled and empty
validation rules (duplicate handling arbitrary: any keep policy, any
subset), a second `transformar` application returns its input unchanged —
running the cleansing transformer twice equals running it once. -/
theorem c5_idempotencia_eliminar (cfg : ConfigLimpieza) (datos salida : List Reg)
    (hEstr : cfg.manejoNulos.estrategia = "eliminar")
    (hTex : cfg.normalizacionTexto.habilitada = false)
    (hFec : cfg.normalizacionFechas.habilitada = false)
    (hOut : cfg.manejoOutliers.habilitado = false)
    (hR : cfg.validacionDatos.rangosNumericos = [])
    (hV : cfg.validacionDatos.valoresPermitidos = [])
    (hL : cfg.validacionDatos.longitudTexto = [])
    (h : transformarLimpieza cfg datos = Except.ok salida) :
    transformarLimpieza cfg salida = Except.ok salida := by
  unfold transformarLimpieza at h ⊢
  cases hval : validarConfiguracion cfg with
  | error e =>
      rw [hval] at h
      exact absurd h (by simp)
  | ok b =>
      rw [hval] at h
      have h2 : limpiar cfg datos = salida := Except.ok.inj h
      show Except.ok (limpiar cfg salida) = Except.ok salida
      rw [← h2, limpiar_idempotente cfg datos hEstr hTex hFec hOut hR hV hL]

/-- Witness for C5: the scenario configuration and record set. -/
theorem c5_idempotencia_eliminar_testigo :
    cfg7.manejoNulos.estrategia = "eliminar" ∧
    cfg7.normalizacionTexto.habilitada = false ∧
    cfg7.normalizacionFechas.habilitada = false ∧
    cfg7.manejoOutliers.habilitado = false ∧
    cfg7.validacionDatos.rangosNumericos = [] ∧
    cfg7.validacionDatos.valoresPermitidos = [] ∧
    cfg7.validacionDatos.longitudTexto = [] ∧
    transformarLimpieza cfg7 datos7 = Except.ok limpio7 ∧
    transformarLimpieza cfg7 limpio7 = Except.ok limpio7 := by
  refine ⟨rfl, rfl, rfl, rfl, rfl, rfl, rfl, rfl, ?_⟩
  exact c5_idempotencia_eliminar cfg7 datos7 limpio7 rfl rfl rfl rfl rfl rfl rfl rfl
